import Mathlib

/-!
Shallow embedding of the core of the `backtracker` event-driven market
simulator, translated from the Python sources:

* `src/core/core.py`      — `EventQueue` (a wrapper around `queue.Queue`)
* `src/core/event.py`     — the event classes
* `src/core/position.py`  — `Position.update_fill`, `market_value`, `unrealized_pnl`
* `src/core/broker.py`    — `Broker._handle_order_event`, `Broker._fill_order`
* `src/core/portfolio.py` — `Portfolio._handle_signal_event`,
  `Portfolio._handle_fill_event`, `Portfolio._deduct_order_value_from_cash`,
  `Portfolio._deduct_fee_from_cash`, `Portfolio._resize_cash_reserve`
* `src/core/risk.py`      — `RiskManager.decide_order_sizing`

Python floats are modelled as `ℚ`, timestamps as `Int`, Python strings as
`String`.  A Python function that can return `True`, `False` or fall through
returning `None` is modelled with `Option Bool` (`none` = Python `None`);
Python truthiness of such a value is `pyTruthy`.
-/

namespace Backtracker

/-- Event classes from `src/core/event.py`.  `MarketEvent.__init__` stores the
`open` argument also in `self.price`; `high/low/close/volume` default to
`None`, modelled as `Option ℚ`. -/
structure MarketEvent where
  timestamp : Int
  symbol : String
  openPrice : ℚ
  high : Option ℚ
  low : Option ℚ
  close : Option ℚ
  volume : Option ℚ
  deriving DecidableEq, Repr

structure SignalEvent where
  timestamp : Int
  symbol : String
  signal_type : String
  deriving DecidableEq, Repr

/-- `OrderEvent` from `src/core/event.py`.  The `quantity` field of a Python
order is duck-typed: the broker checks whether it is castable to `float`.
We model it as `Option ℚ`: `some q` is a value castable to the float `q`,
`none` is a value that is not castable. -/
structure OrderEvent where
  timestamp : Int
  symbol : String
  order_type : String
  quantity : Option ℚ
  direction : String
  deriving DecidableEq, Repr

structure FillEvent where
  timestamp : Int
  symbol : String
  quantity : ℚ
  direction : String
  fill_price : ℚ
  commission : ℚ
  slippage : ℚ
  deriving DecidableEq, Repr

structure FillDeclinedEvent where
  timestamp : Int
  symbol : String
  reason : String
  deriving DecidableEq, Repr

/-- The tagged union of the event classes (each Python class sets a distinct
`self.type` string; dispatch on `event.type` corresponds to matching on the
constructor). -/
inductive Event where
  | market (e : MarketEvent)
  | signal (e : SignalEvent)
  | order (e : OrderEvent)
  | fill (e : FillEvent)
  | fillDeclined (e : FillDeclinedEvent)
  deriving DecidableEq, Repr

/-- Python truthiness of a `True`/`False`/`None` result: only `True` is
truthy. -/
def pyTruthy : Option Bool → Bool
  | some true => true
  | _ => false

/-- `EventQueue` from `src/core/core.py` (lines 88-110).  It wraps
`queue.Queue()`, the standard-library FIFO queue: `put` appends at the back,
`get_nowait` removes from the front.  The list holds the queued events with
the front of the queue at the head. -/
structure EventQueue where
  queue : List Event
  deriving DecidableEq, Repr

namespace EventQueue

/-- `EventQueue.put`: `self._queue.put(event)` appends the event at the back. -/
def put (q : EventQueue) (e : Event) : EventQueue :=
  ⟨q.queue ++ [e]⟩

/-- `EventQueue.get`: `self._queue.get_nowait()` removes and returns the
front event; on an empty queue the `queue.Empty` exception is caught and
`None` is returned. -/
def get (q : EventQueue) : Option Event × EventQueue :=
  match q.queue with
  | [] => (none, q)
  | e :: rest => (some e, ⟨rest⟩)

/-- `EventQueue.is_empty`. -/
def is_empty (q : EventQueue) : Bool :=
  q.queue.isEmpty

/-- `EventQueue.size`. -/
def size (q : EventQueue) : Nat :=
  q.queue.length

/-- Pushing a whole list of events in order. -/
def putAll (q : EventQueue) (es : List Event) : EventQueue :=
  es.foldl put q

end EventQueue

/-- `Position` from `src/core/position.py` (the `symbol` and `logger` fields
are irrelevant to the ledger arithmetic; `symbol` is kept). -/
structure Position where
  symbol : String
  quantity : ℚ
  avg_cost : ℚ
  realized_pnl : ℚ
  cumulated_commission : ℚ
  cumulated_slippage : ℚ
  deriving DecidableEq, Repr

namespace Position

/-- `Position.__init__`: all numeric fields start at `0.0`. -/
def new (symbol : String) : Position :=
  ⟨symbol, 0, 0, 0, 0, 0⟩

/-- `Position.update_fill` from `src/core/position.py` lines 13-61.
Returns the Python return value (`True`, `False`, or the bare `return`
= `None` on a zero-quantity fill) together with the updated position. -/
def update_fill (p : Position) (e : FillEvent) : Option Bool × Position :=
  let direction := e.direction
  let fill_qty := e.quantity
  let fill_price := e.fill_price
  let commission := e.commission
  let slippage := e.slippage
  if fill_qty = 0 then
    (none, p)
  else if direction = "BUY" then
    let total_cost := p.avg_cost * p.quantity + fill_price * fill_qty + commission + slippage
    let quantity := p.quantity + fill_qty
    let avg_cost := if quantity ≠ 0 then total_cost / quantity else 0
    (some true,
      { p with
        quantity := quantity
        avg_cost := avg_cost
        cumulated_commission := p.cumulated_commission + commission
        cumulated_slippage := p.cumulated_slippage + slippage })
  else if direction = "SELL" then
    let qty_to_close := fill_qty
    if qty_to_close > p.quantity then
      (some false, p)
    else
      let pnl := (fill_price - p.avg_cost) * qty_to_close - commission - slippage
      let quantity := p.quantity - qty_to_close
      (some true,
        { p with
          realized_pnl := p.realized_pnl + pnl
          quantity := quantity
          cumulated_commission := p.cumulated_commission + commission
          cumulated_slippage := p.cumulated_slippage + slippage
          avg_cost := if quantity = 0 then 0 else p.avg_cost })
  else
    (some false, p)

/-- `Position.market_value`. -/
def market_value (p : Position) (current_price : ℚ) : ℚ :=
  p.quantity * current_price

/-- `Position.unrealized_pnl`. -/
def unrealized_pnl (p : Position) (current_price : ℚ) : ℚ :=
  (current_price - p.avg_cost) * p.quantity

/-- Folding a list of fill events over a position (each fill applied with
`update_fill`, keeping the mutated position whether or not the update was
accepted, exactly as the in-place Python mutation does). -/
def apply_fills (p : Position) (fs : List FillEvent) : Position :=
  fs.foldl (fun q f => (q.update_fill f).2) p

end Position

/-- The broker collaborators and fee parameters from `Broker.__init__` in
`src/core/broker.py`: a price source with `get_price(symbol, time)`
(`none` models both a Python `None` and a value not castable to `float`,
since `float(price)` is wrapped in `try/except`) and a market calendar with
`is_market_open(time, symbol)`. -/
structure BrokerConfig where
  commission_perc : ℚ
  slippage_perc : ℚ
  get_price : String → Int → Option ℚ
  is_market_open : Int → String → Bool

namespace Broker

/-- `Broker._fill_order` from `src/core/broker.py` lines 85-125, with the
fields the Python body reads off `order_event` (`symbol`, `quantity`,
`direction`) passed explicitly.  `float(price)` raising on `None` or an
uncastable value is the `none` branch; then `price <= 0` is rejected (the
subsequent `price is None` check in the source is unreachable after the
cast).  Slippage is a separate fee, the fill price is the raw price. -/
def fill_order (cfg : BrokerConfig) (symbol : String) (quantity : ℚ)
    (direction : String) (current_time : Int) : Option FillEvent :=
  match cfg.get_price symbol current_time with
  | none => none
  | some price =>
    if price ≤ 0 then
      none
    else
      let slippage := cfg.slippage_perc * quantity * price
      let fill_price := price
      let commission := cfg.commission_perc * quantity * fill_price
      some
        { timestamp := current_time
          symbol := symbol
          quantity := quantity
          direction := direction
          fill_price := fill_price
          commission := commission
          slippage := slippage }

/-- `Broker._handle_order_event` from `src/core/broker.py` lines 40-66.
Returns the updated pending-order holding area together with the list of
events put on the shared event queue.  All four validation failures log a
warning and return `None` without touching any state. -/
def handle_order_event (cfg : BrokerConfig) (pending_orders : List OrderEvent)
    (e : OrderEvent) : List OrderEvent × List Event :=
  if e.order_type ≠ "MARKET" then
    (pending_orders, [])
  else
    match e.quantity with
    | none => (pending_orders, [])
    | some q =>
      if q ≤ 0 then
        (pending_orders, [])
      else if e.direction ≠ "BUY" ∧ e.direction ≠ "SELL" then
        (pending_orders, [])
      else
        let current_time := e.timestamp
        if ¬ cfg.is_market_open current_time e.symbol then
          (pending_orders ++ [e], [])
        else
          match fill_order cfg e.symbol q e.direction current_time with
          | some fill_event => (pending_orders, [Event.fill fill_event])
          | none => (pending_orders, [])

end Broker

/-- `RiskManager` from `src/core/risk.py`: a strategy name (`"MAX"` or
`"FIXED"`) and the fixed order size. -/
structure RiskManager where
  strategy : String
  fixed_amount : ℚ
  deriving DecidableEq, Repr

namespace RiskManager

/-- `RiskManager._max_amount`: on BUY stake all free cash (the Python body
divides `free_cash` by `price_source.price(event.symbol)`; the portfolio has
already checked that this price is a positive number, an unpriceable symbol
would raise in Python and is mapped to `none` here), on SELL close the whole
position, any other signal type falls through returning `None`. -/
def max_amount (_rm : RiskManager) (price : String → Option ℚ)
    (cash cash_reserve : ℚ) (position_quantity : ℚ) (e : SignalEvent) :
    Option ℚ :=
  if e.signal_type = "BUY" then
    let free_cash := cash - cash_reserve
    match price e.symbol with
    | some current_price => some (free_cash / current_price)
    | none => none
  else if e.signal_type = "SELL" then
    some position_quantity
  else
    none

/-- `RiskManager.decide_order_sizing` from `src/core/risk.py` lines 29-34:
dispatch on the selected strategy; an unknown strategy falls through
returning `None`. -/
def decide_order_sizing (rm : RiskManager) (price : String → Option ℚ)
    (cash cash_reserve : ℚ) (position_quantity : ℚ) (e : SignalEvent) :
    Option ℚ :=
  if rm.strategy = "MAX" then
    rm.max_amount price cash cash_reserve position_quantity e
  else if rm.strategy = "FIXED" then
    some rm.fixed_amount
  else
    none

end RiskManager

/-- `Portfolio` from `src/core/portfolio.py` (the ledger fields; the
collaborators `price_source`, `event_queue`, `data_collector` and `logger`
are passed explicitly where needed, and the snapshot sinks have no feedback
into this state). -/
structure Portfolio where
  riskmanager : RiskManager
  cash : ℚ
  cash_reserve : ℚ
  positions : List (String × Position)
  total_invested_value : ℚ
  cumulated_slippage : ℚ
  cumulated_commission : ℚ
  deriving Repr

/-- Assignment `self.positions[symbol] = v` on a Python dict whose keys are
unique: replace the value stored under `k`. -/
def assocSet (l : List (String × Position)) (k : String) (v : Position) :
    List (String × Position) :=
  l.map fun x => if x.1 = k then (k, v) else x

namespace Portfolio

/-- `Portfolio._position_has_keys`. -/
def position_has_keys (pf : Portfolio) (symbol : String) : Bool :=
  (pf.positions.lookup symbol).isSome

/-- `Portfolio._resize_cash_reserve` (lines 205-206): `cash_reserve = cash * 0.1`. -/
def resize_cash_reserve (pf : Portfolio) : Portfolio :=
  { pf with cash_reserve := pf.cash * (1 / 10) }

/-- `Portfolio._deduct_fee_from_cash` (lines 173-178): the fee is deducted
only when `cash > amount` strictly. -/
def deduct_fee_from_cash (pf : Portfolio) (amount : ℚ) : Bool × Portfolio :=
  if pf.cash > amount then
    (true, { pf with cash := pf.cash - amount })
  else
    (false, pf)

/-- `Portfolio._deduct_order_value_from_cash` (lines 226-235): a BUY deducts
the notional only when `cash > price*quantity` strictly; a SELL always
credits; any other direction falls off the end returning `None`. -/
def deduct_order_value_from_cash (pf : Portfolio) (price quantity : ℚ)
    (direction : String) : Option Bool × Portfolio :=
  if direction = "BUY" then
    if pf.cash > price * quantity then
      (some true, { pf with cash := pf.cash - price * quantity })
    else
      (some false, pf)
  else if direction = "SELL" then
    (some true, { pf with cash := pf.cash + price * quantity })
  else
    (none, pf)

/-- `Portfolio._update_total_market_value` (lines 153-159): sum of
`position.market_value(price(sym))` over the positions whose symbol has a
price. -/
def update_total_market_value (pf : Portfolio) (price : String → Option ℚ) :
    Portfolio :=
  { pf with
    total_invested_value :=
      (pf.positions.map fun x =>
        match price x.1 with
        | some p => x.2.market_value p
        | none => 0).sum }

/-- `Portfolio._decide_order_sizing` (lines 208-224): reject a signal type
other than BUY/SELL, reject a missing/zero/non-positive price (`if not
current_price or current_price <= 0`), then ask the risk manager.  The
position quantity handed to the risk manager is the one stored for the
signal's symbol (`positions[event.symbol]`, which the caller has checked to
exist). -/
def decide_order_sizing (pf : Portfolio) (price : String → Option ℚ)
    (e : SignalEvent) : Option ℚ :=
  if e.signal_type ≠ "BUY" ∧ e.signal_type ≠ "SELL" then
    none
  else
    match price e.symbol with
    | none => none
    | some current_price =>
      if current_price ≤ 0 then
        none
      else
        pf.riskmanager.decide_order_sizing price pf.cash pf.cash_reserve
          (((pf.positions.lookup e.symbol).getD (Position.new e.symbol)).quantity) e

/-- `Portfolio._handle_signal_event` (lines 57-81): first resize the cash
reserve, then validate the symbol, then size the order (`if not quantity:
return` drops both `None` and a zero quantity) and emit an `OrderEvent`.
Returns the new portfolio and the events put on the queue. -/
def handle_signal_event (pf : Portfolio) (price : String → Option ℚ)
    (e : SignalEvent) : Portfolio × List Event :=
  let pf := pf.resize_cash_reserve
  if ¬ pf.position_has_keys e.symbol then
    (pf, [])
  else
    match pf.decide_order_sizing price e with
    | none => (pf, [])
    | some quantity =>
      if quantity = 0 then
        (pf, [])
      else
        (pf,
          [Event.order
            { timestamp := e.timestamp
              symbol := e.symbol
              order_type := "MARKET"
              quantity := some quantity
              direction := e.signal_type }])

/-- `Portfolio._handle_fill_event` (lines 83-136).  Order of operations:
position lookup, the in-place `Position.update_fill` mutation, the negative
fee guard, then the three solvency gates (notional, commission fee, slippage
fee), each emitting a `FillDeclinedEvent` and stopping on failure; on full
success the market value and cumulated fee counters are updated (the
snapshot/trade-log sinks hold no portfolio state). -/
def handle_fill_event (pf : Portfolio) (price : String → Option ℚ)
    (e : FillEvent) : Portfolio × List Event :=
  match pf.positions.lookup e.symbol with
  | none => (pf, [])
  | some pos =>
    let r := pos.update_fill e
    let fill_ok := r.1
    let pf := { pf with positions := assocSet pf.positions e.symbol r.2 }
    if ¬ pyTruthy fill_ok then
      (pf, [])
    else if e.commission < 0 ∨ e.slippage < 0 then
      (pf, [])
    else
      let c1 := pf.deduct_order_value_from_cash e.fill_price e.quantity e.direction
      if ¬ pyTruthy c1.1 then
        (c1.2,
          [Event.fillDeclined ⟨e.timestamp, e.symbol, "Balance less then fill amount."⟩])
      else
        let c2 := c1.2.deduct_fee_from_cash e.commission
        if ¬ c2.1 then
          (c2.2,
            [Event.fillDeclined ⟨e.timestamp, e.symbol, "Balance less then fee amount."⟩])
        else
          let c3 := c2.2.deduct_fee_from_cash e.slippage
          if ¬ c3.1 then
            (c3.2,
              [Event.fillDeclined ⟨e.timestamp, e.symbol, "Balance less then fee amount."⟩])
          else
            let pf := c3.2.update_total_market_value price
            ({ pf with
                cumulated_commission := pf.cumulated_commission + e.commission
                cumulated_slippage := pf.cumulated_slippage + e.slippage },
              [])

end Portfolio

/-! ## Theorems -/

theorem EventQueue.eq_of_queue_eq {a b : EventQueue} (h : a.queue = b.queue) :
    a = b := by
  cases a; cases b; cases h; rfl

theorem EventQueue.putAll_queue (es : List Event) :
    ∀ q : EventQueue, (q.putAll es).queue = q.queue ++ es := by
  induction es with
  | nil => intro q; simp [EventQueue.putAll]
  | cons e es ih =>
    intro q
    show (EventQueue.putAll (q.put e) es).queue = _
    rw [ih (q.put e)]
    simp [EventQueue.put]

/-- C1 counterexample: the queue is not last-in-first-out.  Push a signal
event for symbol `A` and then a signal event for symbol `B` onto an empty
queue; `get` returns the event for `A`, the *earliest* pushed event, not the
most recently pushed one. -/
theorem C1_lifo_counterexample :
    (((EventQueue.mk []).put (Event.signal ⟨0, "A", "BUY"⟩)).put
        (Event.signal ⟨0, "B", "SELL"⟩)).get
      = (some (Event.signal ⟨0, "A", "BUY"⟩),
         ⟨[Event.signal ⟨0, "B", "SELL"⟩]⟩)
    ∧ Event.signal (⟨0, "A", "BUY"⟩ : SignalEvent)
        ≠ Event.signal (⟨0, "B", "SELL"⟩ : SignalEvent) := by
  exact ⟨rfl, by decide⟩

/-- C1 (amended): the event queue is first-in-first-out.  For every sequence
of `put` operations on an empty queue, `get` returns the *first* pushed
event that has not yet been popped, and leaves the remaining events in push
order. -/
theorem C1_queue_is_fifo (e : Event) (es : List Event) :
    ((EventQueue.mk []).putAll (e :: es)).get = (some e, EventQueue.mk es) := by
  have h : (EventQueue.mk []).putAll (e :: es) = EventQueue.mk (e :: es) :=
    EventQueue.eq_of_queue_eq
      (by simpa using EventQueue.putAll_queue (e :: es) (EventQueue.mk []))
  rw [h]
  rfl

/-- C2 counterexample: `get` does not batch same-timestamp Market events.
With a queue holding two Market events carrying the identical timestamp `5`,
`get` returns only the first one as a single event, and the second
same-timestamp Market event is still in the queue (size 1) instead of being
collected into the returned unit. -/
theorem C2_no_market_batching_counterexample :
    (MarketEvent.mk 5 "A" 10 none none none none).timestamp
      = (MarketEvent.mk 5 "B" 20 none none none none).timestamp
    ∧ (EventQueue.mk [Event.market ⟨5, "A", 10, none, none, none, none⟩,
          Event.market ⟨5, "B", 20, none, none, none, none⟩]).get
        = (some (Event.market ⟨5, "A", 10, none, none, none, none⟩),
           ⟨[Event.market ⟨5, "B", 20, none, none, none, none⟩]⟩)
    ∧ ((EventQueue.mk [Event.market ⟨5, "A", 10, none, none, none, none⟩,
          Event.market ⟨5, "B", 20, none, none, none, none⟩]).get).2.size = 1 := by
  exact ⟨rfl, rfl, rfl⟩

/-- C2 (amended): `get` pops and returns exactly one event with no
special-casing of Market events: after popping a Market event, a next Market
event with the identical timestamp remains in the queue and will only be
returned singly by a later `get`. -/
theorem C2_get_returns_single_event (m m2 : MarketEvent) (rest : List Event)
    (_h : m.timestamp = m2.timestamp) :
    (EventQueue.mk (Event.market m :: Event.market m2 :: rest)).get
      = (some (Event.market m), EventQueue.mk (Event.market m2 :: rest)) := by
  rfl

/-- Witness for `C2_get_returns_single_event` at two concrete Market events
with the identical timestamp `5`. -/
theorem C2_get_returns_single_event_witness :
    (EventQueue.mk [Event.market ⟨5, "A", 10, none, none, none, none⟩,
        Event.market ⟨5, "B", 20, none, none, none, none⟩]).get
      = (some (Event.market ⟨5, "A", 10, none, none, none, none⟩),
         EventQueue.mk [Event.market ⟨5, "B", 20, none, none, none, none⟩]) :=
  C2_get_returns_single_event ⟨5, "A", 10, none, none, none, none⟩
    ⟨5, "B", 20, none, none, none, none⟩ [] rfl

theorem Position.update_fill_preserves_nonneg (p : Position) (f : FillEvent)
    (hq : 0 ≤ f.quantity) (hp : 0 ≤ f.fill_price) (hc : 0 ≤ f.commission)
    (hs : 0 ≤ f.slippage) (h0 : 0 ≤ p.quantity ∧ 0 ≤ p.avg_cost) :
    0 ≤ (p.update_fill f).2.quantity ∧ 0 ≤ (p.update_fill f).2.avg_cost := by
  obtain ⟨hq0, ha0⟩ := h0
  unfold Position.update_fill
  by_cases hz : f.quantity = 0
  · simpa [hz] using ⟨hq0, ha0⟩
  · by_cases hbuy : f.direction = "BUY"
    · have hqty : 0 ≤ p.quantity + f.quantity := add_nonneg hq0 hq
      have htot : 0 ≤ p.avg_cost * p.quantity + f.fill_price * f.quantity
          + f.commission + f.slippage :=
        add_nonneg (add_nonneg (add_nonneg (mul_nonneg ha0 hq0)
          (mul_nonneg hp hq)) hc) hs
      simp only [hz, hbuy, if_false, if_true, ite_false, ite_true]
      refine ⟨hqty, ?_⟩
      by_cases hne : p.quantity + f.quantity ≠ 0
      · simpa [hne] using div_nonneg htot hqty
      · simp [hne]
    · by_cases hsell : f.direction = "SELL"
      · by_cases hover : f.quantity > p.quantity
        · simp only [hz, hbuy, hsell, hover, if_false, if_true, ite_false,
            ite_true]
          exact ⟨hq0, ha0⟩
        · have hle : f.quantity ≤ p.quantity := le_of_not_lt hover
          simp only [hz, hbuy, hsell, hover, if_false, if_true, ite_false,
            ite_true]
          refine ⟨sub_nonneg.mpr hle, ?_⟩
          by_cases hz2 : p.quantity - f.quantity = 0
          · simp [hz2]
          · simpa [hz2] using ha0
      · simp only [hz, hbuy, hsell, if_false, ite_false]
        exact ⟨hq0, ha0⟩

theorem Position.apply_fills_nonneg (fs : List FillEvent) :
    ∀ p : Position, (0 ≤ p.quantity ∧ 0 ≤ p.avg_cost) →
      (∀ f ∈ fs, 0 ≤ f.quantity ∧ 0 ≤ f.fill_price ∧ 0 ≤ f.commission
        ∧ 0 ≤ f.slippage) →
      0 ≤ (p.apply_fills fs).quantity ∧ 0 ≤ (p.apply_fills fs).avg_cost := by
  induction fs with
  | nil => intro p hp _; simpa [Position.apply_fills] using hp
  | cons f fs ih =>
    intro p hp hf
    obtain ⟨h1, h2, h3, h4⟩ := hf f (List.mem_cons_self f fs)
    have hstep := Position.update_fill_preserves_nonneg p f h1 h2 h3 h4 hp
    show 0 ≤ (Position.apply_fills ((p.update_fill f).2) fs).quantity
        ∧ 0 ≤ (Position.apply_fills ((p.update_fill f).2) fs).avg_cost
    exact ih ((p.update_fill f).2) hstep
      (fun g hg => hf g (List.mem_cons_of_mem f hg))

/-- C4: for every sequence of fill events applied to one fresh Position, each
with non-negative quantity, fill price, commission and slippage, the
Position's `quantity` is never negative and its `avg_cost` is always `≥ 0`;
moreover a SELL fill whose quantity exceeds the held (non-negative) quantity
is rejected — `update_fill` returns `False` and leaves the Position
unchanged. -/
theorem C4_position_nonneg_invariant (s : String) (fs : List FillEvent)
    (hf : ∀ f ∈ fs, 0 ≤ f.quantity ∧ 0 ≤ f.fill_price ∧ 0 ≤ f.commission
      ∧ 0 ≤ f.slippage) :
    (0 ≤ ((Position.new s).apply_fills fs).quantity
      ∧ 0 ≤ ((Position.new s).apply_fills fs).avg_cost)
    ∧ ∀ (p : Position) (f : FillEvent), f.direction = "SELL" →
        0 ≤ p.quantity → p.quantity < f.quantity →
        p.update_fill f = (some false, p) := by
  constructor
  · exact Position.apply_fills_nonneg fs (Position.new s)
      (by simp [Position.new]) hf
  · intro p f hdir hq0 hover
    have hz : f.quantity ≠ 0 := by
      intro hz
      rw [hz] at hover
      exact absurd hover (not_lt.mpr hq0)
    unfold Position.update_fill
    simp [hz, hdir, hover]

/-- Witness for `C4_position_nonneg_invariant`: a concrete BUY-then-SELL
fill sequence on a fresh position, and a concrete oversell that is rejected
unchanged. -/
theorem C4_position_nonneg_invariant_witness :
    (0 ≤ ((Position.new "A").apply_fills
        [⟨0, "A", 4, "BUY", 25, 1, 1⟩, ⟨1, "A", 3, "SELL", 30, 1, 1⟩]).quantity
      ∧ 0 ≤ ((Position.new "A").apply_fills
        [⟨0, "A", 4, "BUY", 25, 1, 1⟩, ⟨1, "A", 3, "SELL", 30, 1, 1⟩]).avg_cost)
    ∧ Position.update_fill ⟨"A", 2, 10, 0, 0, 0⟩ ⟨2, "A", 5, "SELL", 30, 0, 0⟩
        = (some false, ⟨"A", 2, 10, 0, 0, 0⟩) := by
  have h := C4_position_nonneg_invariant "A"
    [⟨0, "A", 4, "BUY", 25, 1, 1⟩, ⟨1, "A", 3, "SELL", 30, 1, 1⟩]
    (by intro f hf; fin_cases hf <;> norm_num)
  exact ⟨h.1, h.2 ⟨"A", 2, 10, 0, 0, 0⟩ ⟨2, "A", 5, "SELL", 30, 0, 0⟩ rfl
    (by norm_num) (by norm_num)⟩

/-- C6: a zero-quantity fill leaves the Position unchanged, but the Python
method executes a bare `return`, so the value reported to the caller is
`None` (falsy), not `True`: `Portfolio._handle_fill_event` therefore treats
a zero-quantity fill as rejected, contradicting the documented `True` =
applied contract. -/
theorem C6_zero_quantity_fill_returns_none (p : Position) (f : FillEvent)
    (h : f.quantity = 0) :
    p.update_fill f = (none, p) ∧ pyTruthy (p.update_fill f).1 = false := by
  unfold Position.update_fill
  simp [h, pyTruthy]

/-- Witness for `C6_zero_quantity_fill_returns_none` at a concrete
zero-quantity BUY fill. -/
theorem C6_zero_quantity_fill_returns_none_witness :
    Position.update_fill (Position.new "A") ⟨0, "A", 0, "BUY", 100, 0, 0⟩
        = (none, Position.new "A")
      ∧ pyTruthy (Position.update_fill (Position.new "A")
          ⟨0, "A", 0, "BUY", 100, 0, 0⟩).1 = false :=
  C6_zero_quantity_fill_returns_none (Position.new "A")
    ⟨0, "A", 0, "BUY", 100, 0, 0⟩ rfl

/-- C8: for every quantity `q > 0` and price `p > 0`, a BUY of `q` at `p`
with zero commission and slippage on a fresh Position followed by a SELL of
`q` at `p` with zero fees yields `realized_pnl = 0`, `quantity = 0` and
`avg_cost = 0`. -/
theorem C8_round_trip (q p : ℚ) (hq : 0 < q) (_hp : 0 < p) :
    ((((Position.new "A").update_fill ⟨0, "A", q, "BUY", p, 0, 0⟩).2.update_fill
        ⟨1, "A", q, "SELL", p, 0, 0⟩).2).realized_pnl = 0
    ∧ ((((Position.new "A").update_fill ⟨0, "A", q, "BUY", p, 0, 0⟩).2.update_fill
        ⟨1, "A", q, "SELL", p, 0, 0⟩).2).quantity = 0
    ∧ ((((Position.new "A").update_fill ⟨0, "A", q, "BUY", p, 0, 0⟩).2.update_fill
        ⟨1, "A", q, "SELL", p, 0, 0⟩).2).avg_cost = 0 := by
  have hqne : q ≠ 0 := ne_of_gt hq
  have h1 : ((Position.new "A").update_fill ⟨0, "A", q, "BUY", p, 0, 0⟩).2
      = ⟨"A", q, p, 0, 0, 0⟩ := by
    unfold Position.update_fill Position.new
    simp [hqne]
  rw [h1]
  unfold Position.update_fill
  simp [hqne]

/-- Witness for `C8_round_trip` at `q = 2`, `p = 3`. -/
theorem C8_round_trip_witness :
    (0 : ℚ) < 2 ∧ (0 : ℚ) < 3
    ∧ ((((Position.new "A").update_fill ⟨0, "A", 2, "BUY", 3, 0, 0⟩).2.update_fill
        ⟨1, "A", 2, "SELL", 3, 0, 0⟩).2).realized_pnl = 0
    ∧ ((((Position.new "A").update_fill ⟨0, "A", 2, "BUY", 3, 0, 0⟩).2.update_fill
        ⟨1, "A", 2, "SELL", 3, 0, 0⟩).2).quantity = 0
    ∧ ((((Position.new "A").update_fill ⟨0, "A", 2, "BUY", 3, 0, 0⟩).2.update_fill
        ⟨1, "A", 2, "SELL", 3, 0, 0⟩).2).avg_cost = 0 := by
  have h := C8_round_trip 2 3 (by norm_num) (by norm_num)
  exact ⟨by norm_num, by norm_num, h.1, h.2.1, h.2.2⟩

/-- C5: a fill attempt emits no Fill when the queried price is `None`, not
castable to a number (both modelled by `none`), or zero/negative; otherwise
it emits exactly one Fill whose `fill_price` equals the quoted price
(slippage is not applied to the execution price), whose slippage fee is
`slippage_perc × quantity × price` and whose commission fee is
`commission_perc × quantity × fill_price`. -/
theorem C5_fill_order_pricing (cfg : BrokerConfig) (symbol : String)
    (quantity : ℚ) (direction : String) (t : Int) :
    ((cfg.get_price symbol t = none
        ∨ ∃ p, cfg.get_price symbol t = some p ∧ p ≤ 0) →
      Broker.fill_order cfg symbol quantity direction t = none)
    ∧ ∀ p : ℚ, cfg.get_price symbol t = some p → 0 < p →
        Broker.fill_order cfg symbol quantity direction t
          = some
            { timestamp := t
              symbol := symbol
              quantity := quantity
              direction := direction
              fill_price := p
              commission := cfg.commission_perc * quantity * p
              slippage := cfg.slippage_perc * quantity * p } := by
  constructor
  · intro h
    unfold Broker.fill_order
    rcases h with h | ⟨p, hp, hple⟩
    · rw [h]
    · rw [hp]
      simp [hple]
  · intro p hp hpos
    unfold Broker.fill_order
    rw [hp]
    simp [not_le.mpr hpos]

/-- Witness for `C5_fill_order_pricing`: a price source with no price for
`"A"` yields no Fill, and a price source quoting `5` yields exactly the Fill
with fill price `5`, commission `1 × 2 × 5` and slippage `2 × 2 × 5`. -/
theorem C5_fill_order_pricing_witness :
    Broker.fill_order ⟨1, 2, fun _ _ => none, fun _ _ => true⟩ "A" 2 "BUY" 0
        = none
    ∧ Broker.fill_order ⟨1, 2, fun _ _ => some 5, fun _ _ => true⟩ "A" 2 "BUY" 0
        = some ⟨0, "A", 2, "BUY", 5, 1 * 2 * 5, 2 * 2 * 5⟩ := by
  refine ⟨(C5_fill_order_pricing ⟨1, 2, fun _ _ => none, fun _ _ => true⟩
    "A" 2 "BUY" 0).1 (Or.inl rfl), ?_⟩
  exact (C5_fill_order_pricing ⟨1, 2, fun _ _ => some 5, fun _ _ => true⟩
    "A" 2 "BUY" 0).2 5 rfl (by norm_num)

/-- C7: an Order event failing Broker validation (order kind not MARKET,
quantity not castable to a float, quantity ≤ 0, or side not BUY/SELL) is
silently discarded: no Fill or FillDeclined is emitted and the pending-order
holding area is unchanged. -/
theorem C7_invalid_order_discarded (cfg : BrokerConfig)
    (pending : List OrderEvent) (e : OrderEvent)
    (h : e.order_type ≠ "MARKET" ∨ e.quantity = none
      ∨ (∃ q, e.quantity = some q ∧ q ≤ 0)
      ∨ (e.direction ≠ "BUY" ∧ e.direction ≠ "SELL")) :
    Broker.handle_order_event cfg pending e = (pending, []) := by
  unfold Broker.handle_order_event
  by_cases hot : e.order_type ≠ "MARKET"
  · simp [hot]
  · simp only [hot, if_false, ite_false]
    rcases hqv : e.quantity with _ | q
    · simp
    · have hrest : (∃ q2, e.quantity = some q2 ∧ q2 ≤ 0)
          ∨ (e.direction ≠ "BUY" ∧ e.direction ≠ "SELL") := by
        rcases h with h | h | h | h
        · exact absurd h hot
        · rw [hqv] at h; cases h
        · exact Or.inl h
        · exact Or.inr h
      by_cases hq0 : q ≤ 0
      · simp [hq0]
      · have hdir : e.direction ≠ "BUY" ∧ e.direction ≠ "SELL" := by
          rcases hrest with ⟨q2, hq2, hq2le⟩ | h
          · rw [hqv] at hq2
            cases hq2
            exact absurd hq2le hq0
          · exact h
        simp [hq0, hdir]

/-- Witness for `C7_invalid_order_discarded`: a LIMIT order is discarded
leaving the pending area (one held order) unchanged and emitting nothing. -/
theorem C7_invalid_order_discarded_witness :
    Broker.handle_order_event ⟨1, 2, fun _ _ => some 5, fun _ _ => true⟩
        [⟨0, "B", "MARKET", some 1, "BUY"⟩]
        ⟨0, "A", "LIMIT", some 1, "BUY"⟩
      = ([⟨0, "B", "MARKET", some 1, "BUY"⟩], []) :=
  C7_invalid_order_discarded ⟨1, 2, fun _ _ => some 5, fun _ _ => true⟩
    [⟨0, "B", "MARKET", some 1, "BUY"⟩] ⟨0, "A", "LIMIT", some 1, "BUY"⟩
    (Or.inl (by decide))

theorem Portfolio.handle_fill_event_notional_declined
    (pf : Portfolio) (price : String → Option ℚ) (e : FillEvent)
    (pos pos' : Position)
    (hlook : pf.positions.lookup e.symbol = some pos)
    (hupd : pos.update_fill e = (some true, pos'))
    (hdir : e.direction = "BUY")
    (hc : 0 ≤ e.commission) (hs : 0 ≤ e.slippage)
    (hcash : ¬ e.fill_price * e.quantity < pf.cash) :
    pf.handle_fill_event price e
      = ({ pf with positions := assocSet pf.positions e.symbol pos' },
         [Event.fillDeclined
           ⟨e.timestamp, e.symbol, "Balance less then fill amount."⟩]) := by
  unfold Portfolio.handle_fill_event
  rw [hlook]
  simp only [hupd, pyTruthy, Bool.not_true, Bool.false_eq_true, not_false_iff,
    ite_true, if_true, not_true, ite_false, if_false]
  simp only [Portfolio.deduct_order_value_from_cash, hdir, ite_true, if_true]
  simp [not_lt.mpr hc, not_lt.mpr hs, hcash, pyTruthy]

/-- C3: a BUY fill whose notional `price × quantity` exceeds available cash
is declined — a `FillDeclined` event is emitted and processing stops — with
cash left unchanged, while the Position mutation already applied through
`update_fill` stays committed in the positions map. -/
theorem C3_declined_fill_commits_position
    (pf : Portfolio) (price : String → Option ℚ) (e : FillEvent)
    (pos pos' : Position)
    (hlook : pf.positions.lookup e.symbol = some pos)
    (hupd : pos.update_fill e = (some true, pos'))
    (hdir : e.direction = "BUY")
    (hc : 0 ≤ e.commission) (hs : 0 ≤ e.slippage)
    (hcash : pf.cash < e.fill_price * e.quantity) :
    (pf.handle_fill_event price e).1.cash = pf.cash
    ∧ (pf.handle_fill_event price e).1.positions
        = assocSet pf.positions e.symbol pos'
    ∧ (pf.handle_fill_event price e).2
        = [Event.fillDeclined
            ⟨e.timestamp, e.symbol, "Balance less then fill amount."⟩] := by
  have h := Portfolio.handle_fill_event_notional_declined pf price e pos pos'
    hlook hupd hdir hc hs (lt_asymm hcash)
  rw [h]
  exact ⟨rfl, rfl, rfl⟩

/-- Witness for `C3_declined_fill_commits_position`: cash 10, a BUY fill of
2 units at price 10 (notional 20 > 10) on a fresh position for `"A"`. -/
theorem C3_declined_fill_commits_position_witness :
    (Portfolio.handle_fill_event
        ⟨⟨"MAX", 10⟩, 10, 1, [("A", Position.new "A")], 0, 0, 0⟩
        (fun _ => none) ⟨0, "A", 2, "BUY", 10, 0, 0⟩).1.cash = 10
    ∧ (Portfolio.handle_fill_event
        ⟨⟨"MAX", 10⟩, 10, 1, [("A", Position.new "A")], 0, 0, 0⟩
        (fun _ => none) ⟨0, "A", 2, "BUY", 10, 0, 0⟩).1.positions
        = [("A", (⟨"A", 2, 10, 0, 0, 0⟩ : Position))]
    ∧ (Portfolio.handle_fill_event
        ⟨⟨"MAX", 10⟩, 10, 1, [("A", Position.new "A")], 0, 0, 0⟩
        (fun _ => none) ⟨0, "A", 2, "BUY", 10, 0, 0⟩).2
        = [Event.fillDeclined ⟨0, "A", "Balance less then fill amount."⟩] := by
  have h := C3_declined_fill_commits_position
    ⟨⟨"MAX", 10⟩, 10, 1, [("A", Position.new "A")], 0, 0, 0⟩
    (fun _ => none) ⟨0, "A", 2, "BUY", 10, 0, 0⟩
    (Position.new "A") ⟨"A", 2, 10, 0, 0, 0⟩
    rfl (by norm_num [Position.update_fill, Position.new]) rfl
    (by norm_num) (by norm_num) (by norm_num)
  refine ⟨h.1, ?_, h.2.2⟩
  have h2 := h.2.1
  simpa [assocSet] using h2

theorem Portfolio.handle_signal_event_fst (pf : Portfolio)
    (price : String → Option ℚ) (e : SignalEvent) :
    (pf.handle_signal_event price e).1 = pf.resize_cash_reserve := by
  simp only [Portfolio.handle_signal_event]
  split
  · rfl
  · split
    · rfl
    · split <;> rfl

/-- C9: every Signal event first sets `cash_reserve` to 10 % of current
cash, before any validation; a Signal for an unknown symbol or with an
unrecognised side therefore mutates `cash_reserve` while leaving cash,
positions and the cumulated fee counters unchanged and emitting no Order. -/
theorem C9_signal_resizes_cash_reserve
    (pf : Portfolio) (price : String → Option ℚ) (e : SignalEvent)
    (h : pf.positions.lookup e.symbol = none
      ∨ (e.signal_type ≠ "BUY" ∧ e.signal_type ≠ "SELL")) :
    (∀ e2 : SignalEvent,
      ((pf.handle_signal_event price e2).1).cash_reserve = pf.cash * (1 / 10))
    ∧ pf.handle_signal_event price e
        = ({ pf with cash_reserve := pf.cash * (1 / 10) }, []) := by
  constructor
  · intro e2
    rw [Portfolio.handle_signal_event_fst]
    rfl
  · have hmain : pf.handle_signal_event price e = (pf.resize_cash_reserve, []) := by
      simp only [Portfolio.handle_signal_event]
      rcases h with hnone | hside
      · have hk : pf.resize_cash_reserve.position_has_keys e.symbol = false := by
          simp [Portfolio.position_has_keys, Portfolio.resize_cash_reserve,
            hnone]
        simp [hk]
      · have hd : pf.resize_cash_reserve.decide_order_sizing price e = none := by
          unfold Portfolio.decide_order_sizing
          simp [hside.1, hside.2]
        by_cases hk : pf.resize_cash_reserve.position_has_keys e.symbol = true
        · simp [hk, hd]
        · simp [hk]
    rw [hmain]
    rfl

/-- Witness for `C9_signal_resizes_cash_reserve`: a Signal for the unknown
symbol `"A"` on a portfolio with no positions and cash 100. -/
theorem C9_signal_resizes_cash_reserve_witness :
    ((Portfolio.handle_signal_event ⟨⟨"MAX", 10⟩, 100, 0, [], 0, 0, 0⟩
        (fun _ => none) ⟨0, "A", "BUY"⟩).1).cash_reserve = 100 * (1 / 10)
    ∧ Portfolio.handle_signal_event ⟨⟨"MAX", 10⟩, 100, 0, [], 0, 0, 0⟩
        (fun _ => none) ⟨0, "A", "BUY"⟩
      = (⟨⟨"MAX", 10⟩, 100, 100 * (1 / 10), [], 0, 0, 0⟩, []) := by
  have h := C9_signal_resizes_cash_reserve
    ⟨⟨"MAX", 10⟩, 100, 0, [], 0, 0, 0⟩ (fun _ => none) ⟨0, "A", "BUY"⟩
    (Or.inl rfl)
  exact ⟨h.1 ⟨0, "A", "BUY"⟩, h.2⟩

/-- C10: the solvency checks are strict: a BUY fill whose notional equals
available cash exactly is declined (a `FillDeclined` is emitted and cash is
not deducted), a fee exactly equal to remaining cash is not deducted, and in
general the notional check passes iff `cash > price × quantity` and the fee
check passes iff `cash > amount`. -/
theorem C10_strict_solvency_checks
    (pf : Portfolio) (price : String → Option ℚ) (e : FillEvent)
    (pos pos' : Position)
    (hlook : pf.positions.lookup e.symbol = some pos)
    (hupd : pos.update_fill e = (some true, pos'))
    (hdir : e.direction = "BUY")
    (hc : 0 ≤ e.commission) (hs : 0 ≤ e.slippage)
    (hnot : pf.cash = e.fill_price * e.quantity) :
    (pf.handle_fill_event price e).2
        = [Event.fillDeclined
            ⟨e.timestamp, e.symbol, "Balance less then fill amount."⟩]
    ∧ (pf.handle_fill_event price e).1.cash = pf.cash
    ∧ (∀ (pf2 : Portfolio) (amt : ℚ), pf2.cash = amt →
        pf2.deduct_fee_from_cash amt = (false, pf2))
    ∧ (∀ (pf2 : Portfolio) (pr q : ℚ),
        (pf2.deduct_order_value_from_cash pr q "BUY").1 = some true
          ↔ pr * q < pf2.cash)
    ∧ (∀ (pf2 : Portfolio) (amt : ℚ),
        (pf2.deduct_fee_from_cash amt).1 = true ↔ amt < pf2.cash) := by
  have hncash : ¬ e.fill_price * e.quantity < pf.cash := by
    rw [hnot]
    exact lt_irrefl _
  have h := Portfolio.handle_fill_event_notional_declined pf price e pos pos'
    hlook hupd hdir hc hs hncash
  refine ⟨by rw [h], by rw [h], ?_, ?_, ?_⟩
  · intro pf2 amt hamt
    unfold Portfolio.deduct_fee_from_cash
    simp [hamt]
  · intro pf2 pr q
    unfold Portfolio.deduct_order_value_from_cash
    by_cases hgt : pr * q < pf2.cash
    · simp [hgt]
    · simp [hgt]
  · intro pf2 amt
    unfold Portfolio.deduct_fee_from_cash
    by_cases hgt : amt < pf2.cash
    · simp [hgt]
    · simp [hgt]

/-- Witness for `C10_strict_solvency_checks`: cash 20 and a BUY fill of 2
units at price 10, so the notional equals the cash exactly; a fee of 20
against cash 20 is likewise refused, and both checks pass on strictly
smaller amounts. -/
theorem C10_strict_solvency_checks_witness :
    (Portfolio.handle_fill_event
        ⟨⟨"MAX", 10⟩, 20, 1, [("A", Position.new "A")], 0, 0, 0⟩
        (fun _ => none) ⟨0, "A", 2, "BUY", 10, 0, 0⟩).2
        = [Event.fillDeclined ⟨0, "A", "Balance less then fill amount."⟩]
    ∧ (Portfolio.handle_fill_event
        ⟨⟨"MAX", 10⟩, 20, 1, [("A", Position.new "A")], 0, 0, 0⟩
        (fun _ => none) ⟨0, "A", 2, "BUY", 10, 0, 0⟩).1.cash = 20
    ∧ Portfolio.deduct_fee_from_cash
        ⟨⟨"MAX", 10⟩, 20, 1, [], 0, 0, 0⟩ 20
        = (false, ⟨⟨"MAX", 10⟩, 20, 1, [], 0, 0, 0⟩)
    ∧ ((Portfolio.deduct_order_value_from_cash
        ⟨⟨"MAX", 10⟩, 20, 1, [], 0, 0, 0⟩ 2 5 "BUY").1 = some true
          ↔ (2 : ℚ) * 5 < 20)
    ∧ ((Portfolio.deduct_fee_from_cash
        ⟨⟨"MAX", 10⟩, 20, 1, [], 0, 0, 0⟩ 5).1 = true ↔ (5 : ℚ) < 20) := by
  have h := C10_strict_solvency_checks
    ⟨⟨"MAX", 10⟩, 20, 1, [("A", Position.new "A")], 0, 0, 0⟩
    (fun _ => none) ⟨0, "A", 2, "BUY", 10, 0, 0⟩
    (Position.new "A") ⟨"A", 2, 10, 0, 0, 0⟩
    rfl (by norm_num [Position.update_fill, Position.new]) rfl
    (by norm_num) (by norm_num) (by norm_num)
  exact ⟨h.1, h.2.1, h.2.2.1 ⟨⟨"MAX", 10⟩, 20, 1, [], 0, 0, 0⟩ 20 rfl,
    h.2.2.2.1 ⟨⟨"MAX", 10⟩, 20, 1, [], 0, 0, 0⟩ 2 5,
    h.2.2.2.2 ⟨⟨"MAX", 10⟩, 20, 1, [], 0, 0, 0⟩ 5⟩

end Backtracker
